import Mathlib

/-!
Verification development for the NeuroRuler slice-transform model
(`src/utils/mri_image.py`): the `MRIImage` class (per-volume rotation/slice
state with a derived `Euler3DTransform`) and the `MRIImageList` collection
(list of images with a circular cursor), together with a model of the
perimeter measurement interface.

Numbers that are exact in the Python source (integer degrees, integer
indices) are modelled by `ℤ`/`ℕ`; real-valued geometry is modelled exactly
over `ℚ`, with radian values represented as formal combinations
`rat + piCoeff * π` (π being irrational, two such combinations denote the
same real number iff the components agree, so equality of `RadianVal`
values is equality of the real rotation values they denote).
-/

namespace NeuroRuler

/-- A radian value, represented exactly as `rat + piCoeff * π` with both
components rational.  `degrees_to_radians d = d * π / 180` has `rat = 0`;
a plain number `x` passed directly to `SetRotation` has `piCoeff = 0`. -/
structure RadianVal where
  rat : ℚ
  piCoeff : ℚ
deriving DecidableEq

/-- Embedding of `degrees_to_radians` from `mri_image.py`:
`degrees * np.pi / 180`. -/
def degrees_to_radians (degrees : ℚ) : RadianVal :=
  ⟨0, degrees / 180⟩

/-- A plain number used where `sitk` expects radians (e.g. the raw integer
arguments that `resample_hardcoded` passes to `SetRotation`). -/
def rawRadian (x : ℚ) : RadianVal :=
  ⟨x, 0⟩

/-- Metadata of a loaded `sitk.Image`: voxel grid size, spacing, origin and
direction matrix (the data needed by `TransformContinuousIndexToPhysicalPoint`
and `GetSize`). -/
structure BaseImage where
  size : List ℕ
  spacing : List ℚ
  origin : List ℚ
  direction : List (List ℚ)
deriving DecidableEq

/-- Embedding of `sitk.Image.TransformContinuousIndexToPhysicalPoint`:
`p = origin + direction · (spacing ⊙ index)`. -/
def BaseImage.transformContinuousIndexToPhysicalPoint (b : BaseImage)
    (idx : List ℚ) : List ℚ :=
  let scaled := List.zipWith (fun s x => s * x) b.spacing idx
  List.zipWith (fun o row => o + (List.zipWith (fun d x => d * x) row scaled).sum)
    b.origin b.direction

/-- The continuous index `[(dimension - 1) / 2.0 for dimension in GetSize()]`
used by `MRIImage.__init__` and the `path` setter. -/
def BaseImage.centerIndex (b : BaseImage) : List ℚ :=
  b.size.map (fun dimension => ((dimension : ℚ) - 1) / 2)

/-- The physical center point that `MRIImage` uses as rotation pivot. -/
def BaseImage.physCenter (b : BaseImage) : List ℚ :=
  b.transformContinuousIndexToPhysicalPoint b.centerIndex

/-- State of a `sitk.Euler3DTransform`: its center and the three rotation
values (in radians). -/
structure Euler3DTransform where
  center : List ℚ
  rotation : RadianVal × RadianVal × RadianVal
deriving DecidableEq

/-- State of an `MRIImage` instance: the five scalar fields, the loaded base
image and the unique `Euler3DTransform` of the instance. -/
structure MRIImage where
  path : String
  theta_x : ℤ
  theta_y : ℤ
  theta_z : ℤ
  slice_z : ℤ
  base_img : BaseImage
  euler_3d_transform : Euler3DTransform
deriving DecidableEq

/-- Embedding of `MRIImage.__init__`.  `fs` models the file reader
(`READER.Execute()` after `SetFileName(path)`): it maps a path to the image
stored there.  The constructor reads the image, sets the transform center to
the physical center of the image and the rotation values to the radian
equivalents of the three angles. -/
def MRIImage.init (fs : String → BaseImage) (path : String)
    (theta_x theta_y theta_z slice_z : ℤ) : MRIImage :=
  let base_img := fs path
  { path := path
    theta_x := theta_x
    theta_y := theta_y
    theta_z := theta_z
    slice_z := slice_z
    base_img := base_img
    euler_3d_transform :=
      { center := base_img.physCenter
        rotation := (degrees_to_radians (theta_x : ℚ), degrees_to_radians (theta_y : ℚ),
                     degrees_to_radians (theta_z : ℚ)) } }

/-- Embedding of `MRIImage.equals`: compares `path`, the transform field
`GetCenter()`, the three angles and the slice value (ignores `base_img`). -/
def MRIImage.equals (m other : MRIImage) : Bool :=
  decide (m.path = other.path)
    && decide (m.euler_3d_transform.center = other.euler_3d_transform.center)
    && decide (m.theta_x = other.theta_x)
    && decide (m.theta_y = other.theta_y)
    && decide (m.theta_z = other.theta_z)
    && decide (m.slice_z = other.slice_z)

/-- Embedding of `MRIImage.deepcopy`: reconstructs from the same path,
angles and slice value (re-reading the file through the global reader). -/
def MRIImage.deepcopy (fs : String → BaseImage) (m : MRIImage) : MRIImage :=
  MRIImage.init fs m.path m.theta_x m.theta_y m.theta_z m.slice_z

/-- Embedding of the `path` setter: re-reads the image, re-centers the
transform on the new image, sets rotation to `(0, 0, 0)` (raw zeros) and
zeroes the four scalar fields. -/
def MRIImage.setPath (fs : String → BaseImage) (m : MRIImage) (p : String) : MRIImage :=
  let base_img := fs p
  { m with
    path := p
    base_img := base_img
    euler_3d_transform :=
      { m.euler_3d_transform with
        center := base_img.physCenter
        rotation := (rawRadian 0, rawRadian 0, rawRadian 0) }
    theta_x := 0
    theta_y := 0
    theta_z := 0
    slice_z := 0 }

/-- Embedding of the `theta_x` setter: stores the new angle and calls
`SetRotation` with the radian equivalents of all three current angles. -/
def MRIImage.setThetaX (m : MRIImage) (t : ℤ) : MRIImage :=
  { m with
    theta_x := t
    euler_3d_transform :=
      { m.euler_3d_transform with
        rotation := (degrees_to_radians (t : ℚ), degrees_to_radians (m.theta_y : ℚ),
                     degrees_to_radians (m.theta_z : ℚ)) } }

/-- Embedding of the `theta_y` setter. -/
def MRIImage.setThetaY (m : MRIImage) (t : ℤ) : MRIImage :=
  { m with
    theta_y := t
    euler_3d_transform :=
      { m.euler_3d_transform with
        rotation := (degrees_to_radians (m.theta_x : ℚ), degrees_to_radians (t : ℚ),
                     degrees_to_radians (m.theta_z : ℚ)) } }

/-- Embedding of the `theta_z` setter. -/
def MRIImage.setThetaZ (m : MRIImage) (t : ℤ) : MRIImage :=
  { m with
    theta_z := t
    euler_3d_transform :=
      { m.euler_3d_transform with
        rotation := (degrees_to_radians (m.theta_x : ℚ), degrees_to_radians (m.theta_y : ℚ),
                     degrees_to_radians (t : ℚ)) } }

/-- Embedding of the `slice_z` setter: `self._slice_z = slice_z`, with no
validation and no other effect (the setter body is a single assignment). -/
def MRIImage.setSliceZ (m : MRIImage) (z : ℤ) : MRIImage :=
  { m with slice_z := z }

/-- Symbolic trace of the `sitk` image expressions built by the resampling
code: a loaded volume, `sitk.Resample(img, transform)`, the 2D extraction
`img[:, :, z]`, `sitk.Cast(img, sitk.sitkFloat64)` and
`GradientAnisotropicDiffusionImageFilter().Execute(img)`. -/
inductive SImage where
  | volume (b : BaseImage)
  | resampleT (img : SImage) (t : Euler3DTransform)
  | sliceZ (img : SImage) (z : ℤ)
  | castFloat64 (img : SImage)
  | gradientAnisotropicDiffusion (img : SImage)
deriving DecidableEq

/-- Embedding of `MRIImage.resample`.  `smooth` models the module-level flag
`settings.SMOOTH_BEFORE_RENDERING`. -/
def MRIImage.resample (smooth : Bool) (m : MRIImage) : SImage :=
  let rotated_slice :=
    SImage.sliceZ (SImage.resampleT (SImage.volume m.base_img) m.euler_3d_transform) m.slice_z
  if smooth then
    SImage.gradientAnisotropicDiffusion (SImage.castFloat64 rotated_slice)
  else
    rotated_slice

/-- Embedding of `MRIImage.resample_hardcoded`: calls
`SetRotation(theta_x, theta_y, theta_z)` with the *raw* arguments (no
degree-to-radian conversion), resamples and slices at the argument `slice_z`,
then calls `SetRotation(self._theta_x, self._theta_y, self._theta_z)` —
again with the raw stored degree values.  Returns the (possibly smoothed)
slice together with the mutated instance state. -/
def MRIImage.resample_hardcoded (smooth : Bool) (m : MRIImage)
    (theta_x theta_y theta_z slice_z : ℤ) : SImage × MRIImage :=
  let t1 :=
    { m.euler_3d_transform with
      rotation := (rawRadian (theta_x : ℚ), rawRadian (theta_y : ℚ), rawRadian (theta_z : ℚ)) }
  let rotated_slice := SImage.sliceZ (SImage.resampleT (SImage.volume m.base_img) t1) slice_z
  let t2 :=
    { t1 with
      rotation := (rawRadian (m.theta_x : ℚ), rawRadian (m.theta_y : ℚ),
                   rawRadian (m.theta_z : ℚ)) }
  let result :=
    if smooth then SImage.gradientAnisotropicDiffusion (SImage.castFloat64 rotated_slice)
    else rotated_slice
  (result, { m with euler_3d_transform := t2 })

/-- The public state-affecting operations of `MRIImage` (the two resample
variants are included because `resample_hardcoded` mutates the transform). -/
inductive MRIOp where
  | setPath (p : String)
  | setThetaX (t : ℤ)
  | setThetaY (t : ℤ)
  | setThetaZ (t : ℤ)
  | setSliceZ (z : ℤ)
  | resample (smooth : Bool)
  | resampleHardcoded (smooth : Bool) (theta_x theta_y theta_z slice_z : ℤ)
deriving DecidableEq

/-- Effect of one public operation on the instance state (`resample` reads
but does not mutate; `resample_hardcoded` mutates the transform). -/
def MRIImage.applyOp (fs : String → BaseImage) (m : MRIImage) : MRIOp → MRIImage
  | MRIOp.setPath p => m.setPath fs p
  | MRIOp.setThetaX t => m.setThetaX t
  | MRIOp.setThetaY t => m.setThetaY t
  | MRIOp.setThetaZ t => m.setThetaZ t
  | MRIOp.setSliceZ z => m.setSliceZ z
  | MRIOp.resample _ => m
  | MRIOp.resampleHardcoded smooth tx ty tz sz =>
      (m.resample_hardcoded smooth tx ty tz sz).2

/-- Effect of a sequence of public operations. -/
def MRIImage.applyOps (fs : String → BaseImage) (m : MRIImage) (ops : List MRIOp) : MRIImage :=
  ops.foldl (MRIImage.applyOp fs) m

/-- A state is reachable if it arises from some construction followed by
some sequence of public operations. -/
def Reachable (fs : String → BaseImage) (m : MRIImage) : Prop :=
  ∃ p tx ty tz sz ops, m = MRIImage.applyOps fs (MRIImage.init fs p tx ty tz sz) ops

/-- Exceptions that `MRIImageList` methods can raise: the two guard
exceptions from `src.utils.exceptions` used by `__delitem__`/`pop`, the
`ZeroDivisionError` produced by `% 0` in `next`/`previous` on an empty list,
and the `IndexError` of an out-of-range list deletion. -/
inductive PyError where
  | removeFromEmptyList
  | removeFromListOfLengthOne
  | zeroDivisionError
  | indexError
deriving DecidableEq

/-- Python `del xs[i]` semantics on a list: negative indices count from the
end; returns `none` (an `IndexError`) when the adjusted index is out of
range. -/
def pyListDelitem {α : Type} (xs : List α) (i : ℤ) : Option (List α) :=
  let j : ℤ := if i < 0 then i + xs.length else i
  if 0 ≤ j ∧ j < xs.length then some (xs.eraseIdx j.toNat) else none

/-- Python `xs.pop(i)` semantics on a list: returns the removed element and
the remaining list, or `none` (an `IndexError`) when out of range. -/
def pyListPop {α : Type} [Inhabited α] (xs : List α) (i : ℤ) : Option (α × List α) :=
  let j : ℤ := if i < 0 then i + xs.length else i
  if 0 ≤ j ∧ j < xs.length then
    some (xs.getD j.toNat default, xs.eraseIdx j.toNat)
  else none

/-- Python `xs.insert(i, a)` semantics: the insertion position is clamped
into `[0, len]` (negative indices count from the end); never fails. -/
def pyListInsert {α : Type} (xs : List α) (i : ℤ) (a : α) : List α :=
  let j : ℤ := if i < 0 then max (i + xs.length) 0 else min i (xs.length : ℤ)
  xs.insertIdx j.toNat a

instance : Inhabited MRIImage :=
  ⟨{ path := "", theta_x := 0, theta_y := 0, theta_z := 0, slice_z := 0,
     base_img := { size := [], spacing := [], origin := [], direction := [] },
     euler_3d_transform := { center := [], rotation := (⟨0, 0⟩, ⟨0, 0⟩, ⟨0, 0⟩) } }⟩

/-- State of an `MRIImageList`: the wrapped list of images and the current
index (`_index` starts at 0 via the class attribute). -/
structure MRIImageList where
  images : List MRIImage
  index : ℤ
deriving DecidableEq

/-- Embedding of `MRIImageList.__init__`: every branch ends with `images`
holding the given elements; `_index` is the class-level default 0. -/
def MRIImageList.initList (init_list : List MRIImage) : MRIImageList :=
  { images := init_list, index := 0 }

/-- Embedding of the `index` setter: stores any integer, with no
validation. -/
def MRIImageList.setIndex (l : MRIImageList) (i : ℤ) : MRIImageList :=
  { l with index := i }

/-- Embedding of `MRIImageList.insert` (delegates to `list.insert`). -/
def MRIImageList.insert (l : MRIImageList) (i : ℤ) (image : MRIImage) : MRIImageList :=
  { l with images := pyListInsert l.images i image }

/-- Embedding of `MRIImageList.append`. -/
def MRIImageList.append (l : MRIImageList) (image : MRIImage) : MRIImageList :=
  { l with images := l.images ++ [image] }

/-- Embedding of `MRIImageList.extend` (both branches extend `_images` with
the elements of the other sequence). -/
def MRIImageList.extend (l : MRIImageList) (other : List MRIImage) : MRIImageList :=
  { l with images := l.images ++ other }

/-- Embedding of `MRIImageList.__delitem__`: raises `RemoveFromEmptyList` on
length 0 and `RemoveFromListOfLengthOne` on length 1 (both before any
mutation), otherwise executes `del self._images[i]`.  The returned pair is
(post-call state, raised exception if any). -/
def MRIImageList.delitem (l : MRIImageList) (i : ℤ) : MRIImageList × Option PyError :=
  if l.images.length = 0 then (l, some PyError.removeFromEmptyList)
  else if l.images.length = 1 then (l, some PyError.removeFromListOfLengthOne)
  else
    match pyListDelitem l.images i with
    | some xs => ({ l with images := xs }, none)
    | none => (l, some PyError.indexError)

/-- Embedding of `MRIImageList.pop`: same guards as `__delitem__`, then
`self._images.pop(i)`.  Returns (post-call state, popped element or raised
exception). -/
def MRIImageList.pop (l : MRIImageList) (i : ℤ) : MRIImageList × Except PyError MRIImage :=
  if l.images.length = 0 then (l, Except.error PyError.removeFromEmptyList)
  else if l.images.length = 1 then (l, Except.error PyError.removeFromListOfLengthOne)
  else
    match pyListPop l.images i with
    | some (a, xs) => ({ l with images := xs }, Except.ok a)
    | none => (l, Except.error PyError.indexError)

/-- Embedding of `MRIImageList.next`: `self._index = (self._index + 1) %
len(self._images)` (a `ZeroDivisionError` when the list is empty, with the
state unchanged since the exception is raised while evaluating the
right-hand side), then the redundant `if len(self) == 1: self._index = 0`. -/
def MRIImageList.next (l : MRIImageList) : MRIImageList × Option PyError :=
  if l.images.length = 0 then (l, some PyError.zeroDivisionError)
  else
    let l1 : MRIImageList := { l with index := (l.index + 1) % (l.images.length : ℤ) }
    if l1.images.length = 1 then ({ l1 with index := 0 }, none) else (l1, none)

/-- Embedding of `MRIImageList.previous`: as `next` but decrementing. -/
def MRIImageList.previous (l : MRIImageList) : MRIImageList × Option PyError :=
  if l.images.length = 0 then (l, some PyError.zeroDivisionError)
  else
    let l1 : MRIImageList := { l with index := (l.index - 1) % (l.images.length : ℤ) }
    if l1.images.length = 1 then ({ l1 with index := 0 }, none) else (l1, none)

/-- The collection operations named by the spec: insert, append, extend,
remove (`__delitem__`), pop, advance (`next`), retreat (`previous`) and
cursor assignment (the `index` setter). -/
inductive ListOp where
  | insertOp (i : ℤ) (image : MRIImage)
  | appendOp (image : MRIImage)
  | extendOp (other : List MRIImage)
  | delitemOp (i : ℤ)
  | popOp (i : ℤ)
  | nextOp
  | previousOp
  | setIndexOp (i : ℤ)
deriving DecidableEq

/-- Post-call state of one collection operation (whether or not the call
raised: every raise in the source happens before any mutation, so the
post-call state on a raise is the pre-call state). -/
def MRIImageList.applyListOp (l : MRIImageList) : ListOp → MRIImageList
  | ListOp.insertOp i image => l.insert i image
  | ListOp.appendOp image => l.append image
  | ListOp.extendOp other => l.extend other
  | ListOp.delitemOp i => (l.delitem i).1
  | ListOp.popOp i => (l.pop i).1
  | ListOp.nextOp => l.next.1
  | ListOp.previousOp => l.previous.1
  | ListOp.setIndexOp i => l.setIndex i

/-- Post-call state of a sequence of collection operations. -/
def MRIImageList.applyListOps (l : MRIImageList) (ops : List ListOp) : MRIImageList :=
  ops.foldl MRIImageList.applyListOp l

/-- State after calling `next` a given number of times. -/
def MRIImageList.applyNextN : ℕ → MRIImageList → MRIImageList
  | 0, l => l
  | n + 1, l => MRIImageList.applyNextN n l.next.1

/-- A 2D integer point of a traced contour. -/
structure Point2 where
  x : ℤ
  y : ℤ
deriving DecidableEq

/-- An ordered closed sequence of contour points (closure implicit). -/
abbrev Contour := List Point2

/-- Squared Euclidean distance between two contour points; the Euclidean
distance `√d` is represented exactly by its square `d`. -/
def sqDist (p q : Point2) : ℤ :=
  (p.x - q.x) ^ 2 + (p.y - q.y) ^ 2

/-- Modelled from the spec: one step of the perimeter computation — read the
`i`-th point and its cyclic successor from the contour (threaded as explicit
state) and produce the squared segment distance together with the contour
state after the step. -/
def segDist (c : Contour) (i : ℕ) : ℤ × Contour :=
  (sqDist (c.getD i ⟨0, 0⟩) (c.getD ((i + 1) % c.length) ⟨0, 0⟩), c)

/-- Modelled from the spec: iterate the perimeter steps over a list of
segment indices, threading the contour state through every step. -/
def perimAux : List ℕ → Contour → List ℤ × Contour
  | [], c => ([], c)
  | i :: is, c =>
      let step := segDist c i
      let rest := perimAux is step.2
      (step.1 :: rest.1, rest.2)

/-- Modelled from the spec: `measure_perimeter` / `length_of_contour`
(`src/utils/imgproc.py` is not among the provided sources; only its test
is).  Per the spec it computes the closed-curve arc length — the sum of
Euclidean distances between consecutive points including the wrap-around
segment — without mutating the contour.  The real-valued length
`Σᵢ √dᵢ` is represented exactly by the list of squared segment distances
`dᵢ`; the function returns that list together with the post-call contour
state. -/
def length_of_contour (c : Contour) : List ℤ × Contour :=
  perimAux (List.range c.length) c

/-- Identity 3×3 direction matrix. -/
def dirId3 : List (List ℚ) :=
  [[1, 0, 0], [0, 1, 0], [0, 0, 1]]

/-- A concrete 4×4×4 test volume with unit spacing and zero origin. -/
def b0 : BaseImage :=
  { size := [4, 4, 4], spacing := [1, 1, 1], origin := [0, 0, 0], direction := dirId3 }

/-- A concrete 6×4×4 test volume, whose physical center differs from
that of `b0`. -/
def b1 : BaseImage :=
  { size := [6, 4, 4], spacing := [1, 1, 1], origin := [0, 0, 0], direction := dirId3 }

/-- A reader serving `b0` at every path. -/
def fs0 : String → BaseImage :=
  fun _ => b0

/-- A reader serving `b0` at path "a" and `b1` at every other path. -/
def fs1 : String → BaseImage :=
  fun p => if p = "a" then b0 else b1

/-- A concrete image used in witnesses. -/
def img0 : MRIImage :=
  MRIImage.init fs0 "a" 0 0 0 0

/-- The collection operations that do not assign the cursor directly and do
not remove elements. -/
def ListOp.keepsCursor : ListOp → Bool
  | ListOp.insertOp _ _ | ListOp.appendOp _ | ListOp.extendOp _
  | ListOp.nextOp | ListOp.previousOp => true
  | ListOp.delitemOp _ | ListOp.popOp _ | ListOp.setIndexOp _ => false

/-- Cursor well-formedness: the cursor is nonnegative, is 0 on an empty
collection, and is a valid position on a non-empty one. -/
def cursorOK (l : MRIImageList) : Prop :=
  0 ≤ l.index ∧ (l.images.length = 0 → l.index = 0) ∧
    (0 < l.images.length → l.index < (l.images.length : ℤ))

/-- Whether an `MRIImage` operation is the `path` setter. -/
def MRIOp.isSetPath : MRIOp → Bool
  | MRIOp.setPath _ => true
  | _ => false

/-- On a non-empty list, `next` raises nothing and sets the cursor to
`(index + 1) mod length` (the special length-1 branch writes 0, which equals
`(index + 1) mod 1`). -/
theorem next_fst (l : MRIImageList) (h : 0 < l.images.length) :
    l.next = ({ l with index := (l.index + 1) % (l.images.length : ℤ) }, none) := by
  unfold MRIImageList.next
  rw [if_neg (by omega)]
  by_cases h1 : l.images.length = 1
  · simp [h1, Int.emod_one]
  · simp [h1]

/-- On a non-empty list, `previous` raises nothing and sets the cursor to
`(index - 1) mod length`. -/
theorem previous_fst (l : MRIImageList) (h : 0 < l.images.length) :
    l.previous = ({ l with index := (l.index - 1) % (l.images.length : ℤ) }, none) := by
  unfold MRIImageList.previous
  rw [if_neg (by omega)]
  by_cases h1 : l.images.length = 1
  · simp [h1, Int.emod_one]
  · simp [h1]

/-- Iterating `next` `k + 1` times on a non-empty list keeps the images and
moves the cursor to `(index + k + 1) mod length`. -/
theorem applyNextN_succ_eq (k : ℕ) :
    ∀ l : MRIImageList, 0 < l.images.length →
      MRIImageList.applyNextN (k + 1) l =
        { l with index := (l.index + (k + 1)) % (l.images.length : ℤ) } := by
  induction k with
  | zero =>
      intro l h
      show MRIImageList.applyNextN 0 l.next.1 = _
      rw [next_fst l h]
      rfl
  | succ k ih =>
      intro l h
      show MRIImageList.applyNextN (k + 1) l.next.1 = _
      rw [next_fst l h]
      rw [ih { l with index := (l.index + 1) % (l.images.length : ℤ) } h]
      simp only [MRIImageList.mk.injEq, true_and]
      push_cast
      rw [Int.emod_add_emod]
      congr 1
      ring

/-- Every operation except the `path` setter preserves `base_img` and
`path`; the `path` setter re-reads through `fs`.  Consequently
`base_img = fs path` and the transform center is that of the current base image:
physical center, in every reachable state. -/
theorem applyOp_inv (fs : String → BaseImage) (m : MRIImage) (op : MRIOp)
    (h1 : m.base_img = fs m.path)
    (h2 : m.euler_3d_transform.center = m.base_img.physCenter) :
    (m.applyOp fs op).base_img = fs (m.applyOp fs op).path ∧
      (m.applyOp fs op).euler_3d_transform.center = (m.applyOp fs op).base_img.physCenter := by
  cases op with
  | setPath p => exact ⟨rfl, rfl⟩
  | setThetaX t => exact ⟨h1, h2⟩
  | setThetaY t => exact ⟨h1, h2⟩
  | setThetaZ t => exact ⟨h1, h2⟩
  | setSliceZ z => exact ⟨h1, h2⟩
  | resample smooth => exact ⟨h1, h2⟩
  | resampleHardcoded smooth tx ty tz sz => exact ⟨h1, h2⟩

/-- The reachability invariant: `base_img` is the image stored at `path`,
and the transform center is the physical center of that image. -/
theorem reachable_inv (fs : String → BaseImage) (m : MRIImage) (h : Reachable fs m) :
    m.base_img = fs m.path ∧
      m.euler_3d_transform.center = m.base_img.physCenter := by
  obtain ⟨p, tx, ty, tz, sz, ops, rfl⟩ := h
  have step : ∀ (ops : List MRIOp) (m : MRIImage),
      m.base_img = fs m.path → m.euler_3d_transform.center = m.base_img.physCenter →
      (MRIImage.applyOps fs m ops).base_img = fs (MRIImage.applyOps fs m ops).path ∧
        (MRIImage.applyOps fs m ops).euler_3d_transform.center
          = (MRIImage.applyOps fs m ops).base_img.physCenter := by
    intro ops
    induction ops with
    | nil => intro m hm1 hm2; exact ⟨hm1, hm2⟩
    | cons op rest ih =>
        intro m hm1 hm2
        have h := applyOp_inv fs m op hm1 hm2
        exact ih (m.applyOp fs op) h.1 h.2
  exact step ops (MRIImage.init fs p tx ty tz sz) rfl rfl

/-- C1: `MRIImage.resample` resamples the full 3D base volume under the
Euler transform of the instance, extracts the 2D plane at the stored slice index
along z of the *resampled* (not the original) volume, and — when smoothing
is enabled — casts that plane to Float64 and applies the gradient
anisotropic diffusion (edge-preserving) filter before returning; otherwise
it returns the raw intensity plane. -/
theorem resample_extracts_from_resampled_volume (m : MRIImage) (smooth : Bool) :
    MRIImage.resample smooth m =
      if smooth then
        SImage.gradientAnisotropicDiffusion (SImage.castFloat64
          (SImage.sliceZ (SImage.resampleT (SImage.volume m.base_img) m.euler_3d_transform)
            m.slice_z))
      else
        SImage.sliceZ (SImage.resampleT (SImage.volume m.base_img) m.euler_3d_transform)
          m.slice_z :=
  rfl

/-- C2 (refuted by the code): there is a reachable state — obtained by
calling `resample_hardcoded(0, 0, 0, 0)` on an image constructed with
`theta_x = 90` — in which the x-rotation of the transform is the raw degree
value 90 rather than `degrees_to_radians 90 = π/2`, because
`resample_hardcoded` restores the rotation with
`SetRotation(self._theta_x, self._theta_y, self._theta_z)` without
converting to radians. -/
theorem resample_hardcoded_rotation_divergence :
    Reachable fs0 (MRIImage.applyOps fs0 (MRIImage.init fs0 "a" 90 0 0 0)
      [MRIOp.resampleHardcoded false 0 0 0 0]) ∧
    (MRIImage.applyOps fs0 (MRIImage.init fs0 "a" 90 0 0 0)
        [MRIOp.resampleHardcoded false 0 0 0 0]).theta_x = 90 ∧
    (MRIImage.applyOps fs0 (MRIImage.init fs0 "a" 90 0 0 0)
        [MRIOp.resampleHardcoded false 0 0 0 0]).euler_3d_transform.rotation.1
      ≠ degrees_to_radians
          (((MRIImage.applyOps fs0 (MRIImage.init fs0 "a" 90 0 0 0)
            [MRIOp.resampleHardcoded false 0 0 0 0]).theta_x : ℚ)) :=
  ⟨⟨"a", 90, 0, 0, 0, [MRIOp.resampleHardcoded false 0 0 0 0], rfl⟩, by decide, by decide⟩

/-- C4 (counterexample): on an empty collection, `next` and `previous` fail
with `ZeroDivisionError`, not with the empty-collection guard exception. -/
theorem advance_empty_zero_division :
    (MRIImageList.initList []).next
        = (MRIImageList.initList [], some PyError.zeroDivisionError) ∧
      (MRIImageList.initList []).next.2 ≠ some PyError.removeFromEmptyList ∧
      (MRIImageList.initList []).previous
        = (MRIImageList.initList [], some PyError.zeroDivisionError) ∧
      (MRIImageList.initList []).previous.2 ≠ some PyError.removeFromEmptyList := by
  decide

/-- C4 (amended): `next` and `previous` move the cursor by +1 and by -1
modulo the length (with wraparound) when the length exceeds 1; on a length-1
collection both leave the cursor at 0; on an empty collection both fail
with `ZeroDivisionError` (not the empty-collection guard exception),
leaving the state unchanged. -/
theorem advance_retreat_behavior (l : MRIImageList) :
    (l.images.length = 0 →
      l.next = (l, some PyError.zeroDivisionError) ∧
        l.previous = (l, some PyError.zeroDivisionError)) ∧
    (l.images.length = 1 →
      l.next = ({ l with index := 0 }, none) ∧
        l.previous = ({ l with index := 0 }, none)) ∧
    (1 < l.images.length →
      l.next = ({ l with index := (l.index + 1) % (l.images.length : ℤ) }, none) ∧
        l.previous = ({ l with index := (l.index - 1) % (l.images.length : ℤ) }, none)) := by
  refine ⟨fun h => ⟨?_, ?_⟩, fun h => ⟨?_, ?_⟩, fun h => ⟨?_, ?_⟩⟩
  · unfold MRIImageList.next
    rw [if_pos h]
  · unfold MRIImageList.previous
    rw [if_pos h]
  · rw [next_fst l (by omega), h]
    simp [Int.emod_one]
  · rw [previous_fst l (by omega), h]
    simp [Int.emod_one]
  · rw [next_fst l (by omega)]
  · rw [previous_fst l (by omega)]

/-- C4 witness: the amended behavior instantiated at an empty collection
and at a concrete length-2 collection. -/
theorem advance_retreat_behavior_witness :
    (MRIImageList.initList []).next
        = (MRIImageList.initList [], some PyError.zeroDivisionError) ∧
      (MRIImageList.initList [img0, img0]).next
        = ({ MRIImageList.initList [img0, img0] with
              index := ((MRIImageList.initList [img0, img0]).index + 1)
                % (((MRIImageList.initList [img0, img0]).images.length : ℤ)) }, none) :=
  ⟨((advance_retreat_behavior (MRIImageList.initList [])).1 (by decide)).1,
   ((advance_retreat_behavior (MRIImageList.initList [img0, img0])).2.2 (by decide)).1⟩

/-- C5: `__delitem__` and `pop` fail with the `RemoveFromEmptyList` guard
on an empty collection and with the `RemoveFromListOfLengthOne` guard on a
length-1 collection, and in both failure cases the collection state (the
element list and the cursor) is unchanged after the call. -/
theorem remove_guards_leave_state_unchanged (l : MRIImageList) (i j : ℤ) :
    (l.images.length = 0 →
      l.delitem i = (l, some PyError.removeFromEmptyList) ∧
        l.pop j = (l, Except.error PyError.removeFromEmptyList)) ∧
    (l.images.length = 1 →
      l.delitem i = (l, some PyError.removeFromListOfLengthOne) ∧
        l.pop j = (l, Except.error PyError.removeFromListOfLengthOne)) := by
  constructor
  · intro h
    constructor
    · unfold MRIImageList.delitem
      rw [if_pos h]
    · unfold MRIImageList.pop
      rw [if_pos h]
  · intro h
    constructor
    · unfold MRIImageList.delitem
      rw [if_neg (by omega), if_pos h]
    · unfold MRIImageList.pop
      rw [if_neg (by omega), if_pos h]

/-- C5 witness: removal guards at an empty and at a length-1 collection. -/
theorem remove_guards_witness :
    (MRIImageList.initList []).delitem 0
        = (MRIImageList.initList [], some PyError.removeFromEmptyList) ∧
      (MRIImageList.initList [img0]).pop (-1)
        = (MRIImageList.initList [img0], Except.error PyError.removeFromListOfLengthOne) :=
  ⟨((remove_guards_leave_state_unchanged (MRIImageList.initList []) 0 0).1 (by decide)).1,
   ((remove_guards_leave_state_unchanged (MRIImageList.initList [img0]) 0 (-1)).2 (by decide)).2⟩

/-- C6 (counterexample): on a volume with `nz = 4`, storing the
out-of-range slice index 100 through the `slice_z` setter succeeds and
changes the stored index — the setter neither fails with an out-of-range
error nor leaves the stored index unchanged. -/
theorem slice_setter_counterexample :
    ¬((100 : ℤ) < (((MRIImage.init fs0 "a" 0 0 0 0).base_img.size.getD 2 0 : ℕ) : ℤ)) ∧
      ((MRIImage.init fs0 "a" 0 0 0 0).setSliceZ 100).slice_z
        ≠ (MRIImage.init fs0 "a" 0 0 0 0).slice_z := by
  decide

/-- C6 (amended): the `slice_z` setter performs no validation — for every
integer `i`, in range or not, it stores `i` unconditionally, never fails,
and changes nothing else. -/
theorem slice_setter_no_validation (m : MRIImage) (z : ℤ) :
    (m.setSliceZ z).slice_z = z ∧
      (m.setSliceZ z).path = m.path ∧
      (m.setSliceZ z).theta_x = m.theta_x ∧
      (m.setSliceZ z).theta_y = m.theta_y ∧
      (m.setSliceZ z).theta_z = m.theta_z ∧
      (m.setSliceZ z).base_img = m.base_img ∧
      (m.setSliceZ z).euler_3d_transform = m.euler_3d_transform :=
  ⟨rfl, rfl, rfl, rfl, rfl, rfl, rfl⟩

/-- Python list insertion always grows the list by one (the position is
clamped, never rejected). -/
theorem length_pyListInsert {α : Type} (xs : List α) (i : ℤ) (a : α) :
    (pyListInsert xs i a).length = xs.length + 1 := by
  have h : ((if i < 0 then max (i + (xs.length : ℤ)) 0 else min i (xs.length : ℤ))).toNat
      ≤ xs.length := by
    split <;> omega
  simpa [pyListInsert] using List.length_insertIdx _ xs h

/-- The cursor well-formedness predicate is preserved by every collection
operation that neither assigns the cursor directly nor removes elements. -/
theorem cursorOK_applyListOp (l : MRIImageList) (op : ListOp)
    (hok : cursorOK l) (hop : op.keepsCursor = true) :
    cursorOK (l.applyListOp op) := by
  obtain ⟨h1, h2, h3⟩ := hok
  cases op with
  | insertOp i image =>
      have hlen := length_pyListInsert l.images i image
      refine ⟨h1, ?_, ?_⟩ <;>
        simp only [MRIImageList.applyListOp, MRIImageList.insert] <;> omega
  | appendOp image =>
      refine ⟨h1, ?_, ?_⟩ <;>
        simp only [MRIImageList.applyListOp, MRIImageList.append, List.length_append,
          List.length_cons, List.length_nil] <;> omega
  | extendOp other =>
      refine ⟨h1, ?_, ?_⟩ <;>
        simp only [MRIImageList.applyListOp, MRIImageList.extend, List.length_append] <;> omega
  | delitemOp i => simp [ListOp.keepsCursor] at hop
  | popOp i => simp [ListOp.keepsCursor] at hop
  | setIndexOp i => simp [ListOp.keepsCursor] at hop
  | nextOp =>
      rcases Nat.eq_zero_or_pos l.images.length with h0 | h0
      · have hz : l.next = (l, some PyError.zeroDivisionError) := by
          unfold MRIImageList.next
          rw [if_pos h0]
        refine ⟨?_, ?_, ?_⟩ <;> simp only [MRIImageList.applyListOp, hz] <;> omega
      · have hn := next_fst l h0
        have e1 : 0 ≤ (l.index + 1) % (l.images.length : ℤ) :=
          Int.emod_nonneg _ (by omega)
        have e2 : (l.index + 1) % (l.images.length : ℤ) < (l.images.length : ℤ) :=
          Int.emod_lt_of_pos _ (by omega)
        refine ⟨?_, ?_, ?_⟩ <;> simp only [MRIImageList.applyListOp, hn] <;> omega
  | previousOp =>
      rcases Nat.eq_zero_or_pos l.images.length with h0 | h0
      · have hz : l.previous = (l, some PyError.zeroDivisionError) := by
          unfold MRIImageList.previous
          rw [if_pos h0]
        refine ⟨?_, ?_, ?_⟩ <;> simp only [MRIImageList.applyListOp, hz] <;> omega
      · have hn := previous_fst l h0
        have e1 : 0 ≤ (l.index - 1) % (l.images.length : ℤ) :=
          Int.emod_nonneg _ (by omega)
        have e2 : (l.index - 1) % (l.images.length : ℤ) < (l.images.length : ℤ) :=
          Int.emod_lt_of_pos _ (by omega)
        refine ⟨?_, ?_, ?_⟩ <;> simp only [MRIImageList.applyListOp, hn] <;> omega

/-- Cursor well-formedness is preserved by any sequence of the safe
operations. -/
theorem cursorOK_applyListOps (ops : List ListOp) :
    ∀ l : MRIImageList, cursorOK l → (∀ op ∈ ops, op.keepsCursor = true) →
      cursorOK (l.applyListOps ops) := by
  induction ops with
  | nil => intro l h _; exact h
  | cons op rest ih =>
      intro l h hall
      exact ih (l.applyListOp op)
        (cursorOK_applyListOp l op h (hall op (by simp)))
        (fun o ho => hall o (by simp [ho]))

/-- C3 (counterexample): the cursor-assignment operation breaks the cursor
invariant — after `index = 7` on a freshly constructed one-element
collection, the collection is non-empty but the cursor is 7 ≥ length. -/
theorem cursor_invariant_counterexample :
    ¬(0 < ((MRIImageList.initList [img0]).applyListOps
          [ListOp.setIndexOp 7]).images.length →
        0 ≤ ((MRIImageList.initList [img0]).applyListOps [ListOp.setIndexOp 7]).index ∧
          ((MRIImageList.initList [img0]).applyListOps [ListOp.setIndexOp 7]).index
            < (((MRIImageList.initList [img0]).applyListOps
                [ListOp.setIndexOp 7]).images.length : ℤ)) := by
  decide

/-- C3 (amended): starting from a freshly constructed collection, after any
sequence of insert, append, extend, advance and retreat operations (no
removal, no pop and no direct cursor assignment — those can break the
invariant), the cursor satisfies `0 ≤ cursor < length` whenever the
collection is non-empty. -/
theorem cursor_invariant_without_removal_or_assignment (init_list : List MRIImage)
    (ops : List ListOp) (hops : ∀ op ∈ ops, op.keepsCursor = true)
    (hne : 0 < ((MRIImageList.initList init_list).applyListOps ops).images.length) :
    0 ≤ ((MRIImageList.initList init_list).applyListOps ops).index ∧
      ((MRIImageList.initList init_list).applyListOps ops).index
        < (((MRIImageList.initList init_list).applyListOps ops).images.length : ℤ) := by
  have hstart : cursorOK (MRIImageList.initList init_list) := by
    refine ⟨le_refl 0, fun _ => rfl, fun h0 => ?_⟩
    have h0a : 0 < init_list.length := h0
    show (0 : ℤ) < (init_list.length : ℤ)
    omega
  have h := cursorOK_applyListOps ops (MRIImageList.initList init_list) hstart hops
  exact ⟨h.1, h.2.2 hne⟩

/-- C3 witness: the amended invariant at a concrete safe operation
sequence. -/
theorem cursor_invariant_witness :
    0 ≤ ((MRIImageList.initList [img0]).applyListOps
        [ListOp.appendOp img0, ListOp.nextOp]).index ∧
      ((MRIImageList.initList [img0]).applyListOps
          [ListOp.appendOp img0, ListOp.nextOp]).index
        < (((MRIImageList.initList [img0]).applyListOps
            [ListOp.appendOp img0, ListOp.nextOp]).images.length : ℤ) :=
  cursor_invariant_without_removal_or_assignment [img0]
    [ListOp.appendOp img0, ListOp.nextOp] (by decide) (by decide)

/-- C7 (counterexample): the `path` setter is a public operation that moves
the rotation pivot — switching from a volume with center (3/2, 3/2, 3/2) to
one with center (5/2, 3/2, 3/2) changes the center of the transform. -/
theorem pivot_changed_by_path_setter :
    (MRIImage.applyOps fs1 (MRIImage.init fs1 "a" 0 0 0 0)
        [MRIOp.setPath "b"]).euler_3d_transform.center
      ≠ (MRIImage.init fs1 "a" 0 0 0 0).euler_3d_transform.center := by
  simp [MRIImage.applyOps, MRIImage.applyOp, MRIImage.setPath, MRIImage.init,
    fs1, b0, b1, BaseImage.physCenter,
    BaseImage.transformContinuousIndexToPhysicalPoint, BaseImage.centerIndex, dirId3]
  norm_num

/-- C7 (amended): in every reachable state the rotation pivot equals the
physical center of the *currently loaded* volume (the image at the current
path); it is set at construction, and no operation other than the `path`
setter — which re-pivots to the center of the new volume — changes it. -/
theorem pivot_tracks_current_volume (fs : String → BaseImage) (m : MRIImage)
    (h : Reachable fs m) :
    m.euler_3d_transform.center = m.base_img.physCenter ∧
      m.base_img = fs m.path ∧
      ∀ op : MRIOp, op.isSetPath = false →
        (m.applyOp fs op).euler_3d_transform.center = m.euler_3d_transform.center := by
  obtain ⟨hb, hc⟩ := reachable_inv fs m h
  refine ⟨hc, hb, ?_⟩
  intro op hop
  cases op with
  | setPath p => simp [MRIOp.isSetPath] at hop
  | setThetaX t => rfl
  | setThetaY t => rfl
  | setThetaZ t => rfl
  | setSliceZ z => rfl
  | resample smooth => rfl
  | resampleHardcoded smooth tx ty tz sz => rfl

/-- C7 witness: the amended invariant at a freshly constructed image. -/
theorem pivot_tracks_current_volume_witness :
    (MRIImage.init fs1 "a" 0 0 0 0).euler_3d_transform.center
      = (MRIImage.init fs1 "a" 0 0 0 0).base_img.physCenter :=
  (pivot_tracks_current_volume fs1 (MRIImage.init fs1 "a" 0 0 0 0)
    ⟨"a", 0, 0, 0, 0, [], rfl⟩).1

/-- C8: on a collection of length n ≥ 1 with a valid cursor position,
calling `next` exactly n times returns the collection (images and cursor)
to its original state, and a single call on a length-1 collection leaves
the collection unchanged. -/
theorem advance_length_times_identity (l : MRIImageList)
    (h : 0 < l.images.length) (h0 : 0 ≤ l.index)
    (h1 : l.index < (l.images.length : ℤ)) :
    MRIImageList.applyNextN l.images.length l = l ∧
      (l.images.length = 1 → l.next.1 = l) := by
  constructor
  · obtain ⟨n, hn⟩ : ∃ n, l.images.length = n + 1 := ⟨l.images.length - 1, by omega⟩
    rw [hn, applyNextN_succ_eq n l h]
    have hL : ((n : ℤ) + 1) = (l.images.length : ℤ) := by omega
    have hsum : (l.index + ((n : ℤ) + 1)) % (l.images.length : ℤ) = l.index := by
      rw [hL]
      have h2 : (l.index + (l.images.length : ℤ)) % (l.images.length : ℤ)
          = l.index % (l.images.length : ℤ) := by
        simp
      rw [h2, Int.emod_eq_of_lt h0 h1]
    rw [hsum]
  · intro h2
    obtain ⟨imgs, idx⟩ := l
    have hidx : idx = 0 := by
      simp only at h0 h1 h2
      omega
    subst hidx
    rw [next_fst _ h]
    simp [h2, Int.emod_one]

/-- C8 witness: two advances on a concrete length-2 collection restore it;
one advance on a concrete length-1 collection is the identity. -/
theorem advance_length_times_identity_witness :
    MRIImageList.applyNextN 2 (MRIImageList.initList [img0, img0])
        = MRIImageList.initList [img0, img0] ∧
      (MRIImageList.initList [img0]).next.1 = MRIImageList.initList [img0] :=
  ⟨(advance_length_times_identity (MRIImageList.initList [img0, img0])
      (by decide) (by decide) (by decide)).1,
   (advance_length_times_identity (MRIImageList.initList [img0])
      (by decide) (by decide) (by decide)).2 (by decide)⟩

/-- The perimeter iteration threads the contour state through unchanged:
every step only reads. -/
theorem perimAux_preserves (is : List ℕ) :
    ∀ c : Contour, (perimAux is c).2 = c := by
  induction is with
  | nil => intro c; rfl
  | cons i rest ih =>
      intro c
      simp [perimAux, segDist, ih]

/-- C9: `length_of_contour` (measure_perimeter) never mutates its input
contour — the post-call contour state equals the pre-call snapshot. -/
theorem length_of_contour_does_not_mutate (c : Contour) :
    (length_of_contour c).2 = c :=
  perimAux_preserves (List.range c.length) c

/-- C10: in every reachable state, `deepcopy` (which reconstructs from the
same path, angles and slice index) produces an image that `equals` the
original — `equals` comparing exactly path, transform center, the three
angles and the slice index. -/
theorem deepcopy_equals_self (fs : String → BaseImage) (m : MRIImage)
    (h : Reachable fs m) :
    (m.deepcopy fs).equals m = true := by
  obtain ⟨hb, hc⟩ := reachable_inv fs m h
  simp [MRIImage.equals, MRIImage.deepcopy, MRIImage.init, hc, hb]

/-- C10 witness: a deep copy of a concrete constructed image equals it. -/
theorem deepcopy_equals_self_witness :
    ((MRIImage.init fs0 "a" 5 0 0 2).deepcopy fs0).equals
        (MRIImage.init fs0 "a" 5 0 0 2) = true :=
  deepcopy_equals_self fs0 (MRIImage.init fs0 "a" 5 0 0 2)
    ⟨"a", 5, 0, 0, 2, [], rfl⟩

end NeuroRuler
